import Mathlib

/-!
Shallow embedding of the monke-lang parser front end (packages `ast` and
`parser` of the repository) together with the pieces of its environment that
the parser observes: the token stream interface and Go's
`strconv.ParseInt(s, 0, 64)`.

Modelling conventions:
* Go interface values that can be `nil` are modelled explicitly: the
  `ast.Expression` interface gets a dedicated `Expression.nilExpr` value (the
  nil interface), and Go pointers (`*ast.LetStatement`, `*ast.Identifier`, ...)
  become `Option`.
* The mutable `Parser` struct becomes explicit state passing over `PState`.
* The two loops of the source that are not structurally bounded (the
  skip-to-semicolon loops and the `ParseProgram` driver loop, plus the
  `parseExpression`/`parsePrefixExpression` recursion) take a fuel argument;
  `none` as the outermost result means the fuel ran out, i.e. the Go code would
  still be running.
* A method call on a nil pointer/interface would panic in Go; the rendering
  functions therefore return `Option String`, with `none` marking a panic.
-/

namespace Monke

/-- Modelled from the spec: the `token` package is not under `src/`; spec §6
lists the token kinds the parser requires ("end-of-input, identifier, integer,
`let`, `return`, assignment, semicolon, `!`, `-`, `+`, `/`, `*`, `==`, `!=`,
`<`, `>`"). -/
inductive TokenType where
  | EOF
  | IDENT
  | INT
  | LET
  | RETURN
  | ASSIGN
  | SEMICOLON
  | BANG
  | MINUS
  | PLUS
  | SLASH
  | ASTERISK
  | EQ
  | NOT_EQ
  | LT
  | GT
  deriving DecidableEq, Repr, Fintype

/-- Modelled from the spec: the `token` package's constant values (Go's
`token.TokenType` is a string type and the parser interpolates it into
diagnostics with `%s`). The conventional Monkey constants are used; only the
fact that each kind has some fixed text matters to the claims. -/
def tokenTypeStr : TokenType → String
  | .EOF => "EOF"
  | .IDENT => "IDENT"
  | .INT => "INT"
  | .LET => "LET"
  | .RETURN => "RETURN"
  | .ASSIGN => "="
  | .SEMICOLON => ";"
  | .BANG => "!"
  | .MINUS => "-"
  | .PLUS => "+"
  | .SLASH => "/"
  | .ASTERISK => "*"
  | .EQ => "=="
  | .NOT_EQ => "!="
  | .LT => "<"
  | .GT => ">"

/-- Go's `token.Token`: a kind and the literal text. -/
structure Token where
  type : TokenType
  literal : String
  deriving DecidableEq, Repr

/-- The end-of-input token the tokenizer produces once its input is exhausted. -/
def eofToken : Token := { type := TokenType.EOF, literal := "" }

/-- Go's `ast.Identifier` (`Token` plus `Value`). -/
structure Identifier where
  token : Token
  value : String
  deriving DecidableEq, Repr

/-- The `ast.Expression` interface. `nilExpr` is the nil interface value;
the variants and their fields are the ones the parser constructs
(`ast.Identifier`, `ast.IntegerLiteral{Token, Value}`,
`ast.PrefixExpression{Token, Operator, Right}`,
`ast.InfixExpression{Token, Operator, Left, Right}`). -/
inductive Expression where
  | nilExpr
  | ident (i : Identifier)
  | intLit (token : Token) (value : Int)
  | prefixE (token : Token) (operator : String) (right : Expression)
  | infixE (token : Token) (operator : String) (left : Expression) (right : Expression)
  deriving DecidableEq, Repr

/-- Go's `e != nil` on an `ast.Expression` interface value. -/
def isNilExpr : Expression → Bool
  | .nilExpr => true
  | _ => false

/-- Go's `ast.LetStatement`: `Name` is a `*ast.Identifier` (nillable pointer),
`Value` an `ast.Expression` interface (nillable). -/
structure LetStatement where
  token : Token
  name : Option Identifier
  value : Expression
  deriving DecidableEq, Repr

/-- Go's `ast.ReturnStatement`. -/
structure ReturnStatement where
  token : Token
  returnValue : Expression
  deriving DecidableEq, Repr

/-- Go's `ast.ExpressionStatement`. -/
structure ExpressionStatement where
  token : Token
  expression : Expression
  deriving DecidableEq, Repr

/-- An `ast.Statement` interface value as produced by `parseStatement`: a typed
statement pointer boxed into the interface. The `Option` inside each variant is
the pointer, which may be nil. Note that in Go an interface value holding a
typed nil pointer is itself non-nil; `parseStatement` always returns one of
these boxed typed pointers and never the nil interface. -/
inductive Statement where
  | letS (p : Option LetStatement)
  | returnS (p : Option ReturnStatement)
  | exprS (p : Option ExpressionStatement)
  deriving DecidableEq, Repr

/-- Go's `ast.Program`. -/
structure Program where
  statements : List Statement
  deriving DecidableEq, Repr

/-! Canonical renderings: the `String()` methods of `src/ast/ast.go`.
`none` models a Go panic from calling a method through a nil pointer or nil
interface. -/

/-- String() for expressions. `Identifier.String` (returns `Value`) is in
`src/ast/ast.go`. Modelled from the spec for the rest: `src/ast/ast.go` does
not contain `IntegerLiteral`, `PrefixExpression`, `InfixExpression`; spec §4.4
gives their fully parenthesized renderings (`(-a)`, `((-a) * b)`,
`(a + (b * c))`) and integer literals render as their token text. -/
def exprString : Expression → Option String
  | .nilExpr => none
  | .ident i => some i.value
  | .intLit tok _ => some tok.literal
  | .prefixE _ op right => (exprString right).map fun rs => "(" ++ op ++ rs ++ ")"
  | .infixE _ op left right =>
    match exprString left, exprString right with
    | some ls, some rs => some ("(" ++ ls ++ " " ++ op ++ " " ++ rs ++ ")")
    | _, _ => none

/-- `LetStatement.String` from `src/ast/ast.go`: literal, space, name, " = ",
the value if non-nil, then ";". Calling it with a nil `Name` panics. -/
def letStatementString (ls : LetStatement) : Option String :=
  match ls.name with
  | none => none
  | some nm =>
    if isNilExpr ls.value then
      some (ls.token.literal ++ " " ++ nm.value ++ " = " ++ ";")
    else
      (exprString ls.value).map fun vs =>
        ls.token.literal ++ " " ++ nm.value ++ " = " ++ vs ++ ";"

/-- `ReturnStatement.String` from `src/ast/ast.go` (lines 101-113): it writes
the token literal and a space, then, when `ReturnValue` is non-nil, writes the
token literal and a space AGAIN (it never renders `ReturnValue`), then ";". -/
def returnStatementString (rs : ReturnStatement) : String :=
  let out := rs.token.literal ++ " "
  let out := if isNilExpr rs.returnValue then out else out ++ (rs.token.literal ++ " ")
  out ++ ";"

/-- `ExpressionStatement.String` from `src/ast/ast.go`: the expression's
rendering when non-nil, otherwise the empty string. -/
def expressionStatementString (es : ExpressionStatement) : Option String :=
  if isNilExpr es.expression then some "" else exprString es.expression

/-- `String()` dispatched through the `ast.Statement` interface; a typed nil
receiver panics (the methods immediately dereference their receiver). -/
def statementString : Statement → Option String
  | .letS none => none
  | .letS (some ls) => letStatementString ls
  | .returnS none => none
  | .returnS (some rs) => some (returnStatementString rs)
  | .exprS none => none
  | .exprS (some es) => expressionStatementString es

/-- `TokenLiteral()` dispatched through the `ast.Statement` interface. -/
def statementTokenLiteral : Statement → Option String
  | .letS none => none
  | .letS (some ls) => some ls.token.literal
  | .returnS none => none
  | .returnS (some rs) => some rs.token.literal
  | .exprS none => none
  | .exprS (some es) => some es.token.literal

/-- `Program.String` from `src/ast/ast.go`: concatenation of the statements'
renderings. -/
def programStringAux : List Statement → Option String
  | [] => some ""
  | st :: rest =>
    match statementString st, programStringAux rest with
    | some a, some b => some (a ++ b)
    | _, _ => none

def programString (p : Program) : Option String :=
  programStringAux p.statements

/-- `Program.TokenLiteral` from `src/ast/ast.go` (lines 29-36): the first
statement's `TokenLiteral()` when any statement exists, else `""`. -/
def programTokenLiteral (p : Program) : Option String :=
  match p.statements with
  | [] => some ""
  | st :: _ => statementTokenLiteral st

/-! Go's `strconv.ParseInt(s, 0, 64)`, modelled from the Go standard library
(the parser's only use of `strconv`). `none` stands for a non-nil error of
either kind (syntax or range): `parseIntegerLiteral` only branches on
`err != nil`, and for bit size 64 a range error from the unsigned phase always
becomes an error of `ParseInt` as well. -/

/-- Go strconv's `lower(c)`: `c | ('x' - 'X')`. -/
def goLower (c : Char) : Char := Char.ofNat (c.toNat ||| 0x20)

/-- One digit of `ParseUint`: `'0'..'9'`, then letters via `lower`. -/
def digitVal (c : Char) : Option Nat :=
  if '0' ≤ c ∧ c ≤ '9' then some (c.toNat - '0'.toNat)
  else if 'a' ≤ goLower c ∧ goLower c ≤ 'z' then some ((goLower c).toNat - 'a'.toNat + 10)
  else none

/-- The digit loop of `ParseUint`. The parser always passes base 0 to
`ParseInt`, so strconv's `base0` flag is constantly true and underscores are
skipped here (their placement is validated afterwards by `goUnderscoreOK`,
as in Go). Returns the accumulated value and whether an underscore was seen;
`none` is a syntax error. Go detects overflow per step against `maxVal`;
accumulating in `Nat` and comparing against `2^64 - 1` at the end (see
`goParseUint64Base0`) errors on exactly the same strings. -/
def goDigitsLoop (base : Nat) : List Char → Nat → Bool → Option (Nat × Bool)
  | [], acc, sawU => some (acc, sawU)
  | c :: rest, acc, sawU =>
    if c = '_' then goDigitsLoop base rest acc true
    else
      match digitVal c with
      | none => none
      | some d => if d ≥ base then none else goDigitsLoop base rest (acc * base + d) sawU

/-- Base determination of `ParseUint` with base argument 0: `0b`/`0o`/`0x`
prefixes (only when followed by at least one more character), a bare leading
`0` means octal, otherwise decimal. Returns the base and the remaining
characters. -/
def goBaseSplit : List Char → Nat × List Char
  | '0' :: c2 :: rest =>
    if goLower c2 = 'b' ∧ rest ≠ [] then (2, rest)
    else if goLower c2 = 'o' ∧ rest ≠ [] then (8, rest)
    else if goLower c2 = 'x' ∧ rest ≠ [] then (16, rest)
    else (8, c2 :: rest)
  | ['0'] => (8, [])
  | l => (10, l)

/-- Track of Go strconv's `underscoreOK` scan: start of number, last saw a
digit (or base prefix), last saw an underscore, last saw anything else. -/
inductive USaw where
  | start
  | digit
  | under
  | other
  deriving DecidableEq, Repr

/-- The scan loop of Go strconv's `underscoreOK`: an underscore must sit
between a digit (or base prefix) and a digit. -/
def goUnderscoreLoop (hex : Bool) : List Char → USaw → Bool
  | [], saw => saw ≠ USaw.under
  | c :: rest, saw =>
    if ('0' ≤ c ∧ c ≤ '9') ∨ (hex = true ∧ 'a' ≤ goLower c ∧ goLower c ≤ 'f') then
      goUnderscoreLoop hex rest USaw.digit
    else if c = '_' then
      if saw ≠ USaw.digit then false else goUnderscoreLoop hex rest USaw.under
    else if saw = USaw.under then false
    else goUnderscoreLoop hex rest USaw.other

/-- Go strconv's `underscoreOK` on the unsigned part of the literal (an
optional sign is stripped first, as in Go). -/
def goUnderscoreOK (s : List Char) : Bool :=
  let s1 := match s with
    | c :: rest => if c = '-' ∨ c = '+' then rest else s
    | [] => s
  match s1 with
  | '0' :: c2 :: rest =>
    if goLower c2 = 'b' ∨ goLower c2 = 'o' ∨ goLower c2 = 'x' then
      goUnderscoreLoop (goLower c2 = 'x') rest USaw.digit
    else goUnderscoreLoop false s1 USaw.start
  | _ => goUnderscoreLoop false s1 USaw.start

/-- Go's `strconv.ParseUint(s, 0, 64)` (as used by `ParseInt`): `none` is an
error (syntax or range). -/
def goParseUint64Base0 (s0 : List Char) : Option Nat :=
  if s0 = [] then none
  else
    let pr := goBaseSplit s0
    match goDigitsLoop pr.1 pr.2 0 false with
    | none => none
    | some (n, sawU) =>
      if sawU = true ∧ goUnderscoreOK s0 = false then none
      else if n ≥ 2 ^ 64 then none
      else some n

/-- Go's `strconv.ParseInt(s, 0, 64)`: optional sign, unsigned phase, then the
signed range check (`n ≥ 2^63` for positive, `n > 2^63` for negative is out of
range). `none` is a non-nil error. -/
def goParseInt64 (s : String) : Option Int :=
  match s.data with
  | [] => none
  | c :: rest =>
    let neg : Bool := decide (c = '-')
    let body : List Char := if c = '+' ∨ c = '-' then rest else c :: rest
    match goParseUint64Base0 body with
    | none => none
    | some n =>
      if neg = false ∧ n ≥ 2 ^ 63 then none
      else if neg = true ∧ n > 2 ^ 63 then none
      else if neg then some (-(n : Int)) else some ((n : Int))

/-! Go's `%q` string verb (`strconv.Quote`), used by `parseIntegerLiteral`'s
diagnostic; modelled from the Go standard library for the ASCII range (the
only characters the exercised token literals contain): surrounding double
quotes, backslash escapes for `"` and `\`, the named control escapes, and
`\xhh` for the remaining control bytes. -/

def hexDigitChar (n : Nat) : Char :=
  if n < 10 then Char.ofNat ('0'.toNat + n) else Char.ofNat ('a'.toNat + (n - 10))

def hexByte (n : Nat) : String :=
  String.singleton (hexDigitChar (n / 16)) ++ String.singleton (hexDigitChar (n % 16))

def goQuoteChar (c : Char) : String :=
  if c = '"' then "\\\""
  else if c = '\\' then "\\\\"
  else if 0x20 ≤ c.toNat ∧ c.toNat ≤ 0x7e then String.singleton c
  else if c = '\n' then "\\n"
  else if c = '\t' then "\\t"
  else if c = '\r' then "\\r"
  else if c.toNat = 7 then "\\a"
  else if c.toNat = 8 then "\\b"
  else if c.toNat = 11 then "\\v"
  else if c.toNat = 12 then "\\f"
  else if c.toNat < 0x80 then "\\x" ++ hexByte c.toNat
  else String.singleton c

def goQuote (s : String) : String :=
  "\"" ++ String.join (s.data.map goQuoteChar) ++ "\""

/-! The parser (`src/unnamed/part_002`, package `parser`). -/

/-- The parser's mutable state: `curToken`, `peekToken`, the accumulated error
strings, and the not-yet-delivered remainder of the finite token stream. -/
structure PState where
  curToken : Token
  peekToken : Token
  rest : List Token
  errors : List String
  deriving DecidableEq, Repr

/-- Modelled from the spec: the tokenizer (`lexer` package, not under `src/`)
"produces a finite, restartable-only-from-scratch sequence of typed tokens"
and the stream is "terminated by an end-of-input token" (spec §2, §5): after
the finite sequence is exhausted every further `NextToken()` call yields the
end-of-input token. -/
def streamNext (rest : List Token) : Token × List Token :=
  match rest with
  | [] => (eofToken, [])
  | t :: ts => (t, ts)

/-- `Parser.nextToken`: `curToken = peekToken; peekToken = l.NextToken()`. -/
def nextToken (s : PState) : PState :=
  { s with curToken := s.peekToken,
           peekToken := (streamNext s.rest).1,
           rest := (streamNext s.rest).2 }

/-- `Parser.curTokenIs`. -/
def curTokenIs (s : PState) (t : TokenType) : Bool :=
  decide (s.curToken.type = t)

/-- `Parser.peekTokenIs`. -/
def peekTokenIs (s : PState) (t : TokenType) : Bool :=
  decide (s.peekToken.type = t)

/-- The text of `peekError`'s diagnostic:
`"expected next token to be %s, got %s instead"`. -/
def peekErrorMsg (expected got : TokenType) : String :=
  "expected next token to be " ++ tokenTypeStr expected ++ ", got " ++
    tokenTypeStr got ++ " instead"

/-- `Parser.peekError`: append the unexpected-token diagnostic. -/
def peekError (s : PState) (t : TokenType) : PState :=
  { s with errors := s.errors ++ [peekErrorMsg t s.peekToken.type] }

/-- The text of `noPrefixParseFnError`'s diagnostic:
`"no prefix parse function for %s found"`. -/
def noPrefixMsg (t : TokenType) : String :=
  "no prefix parse function for " ++ tokenTypeStr t ++ " found"

/-- `Parser.noPrefixParseFnError`: append the missing-handler diagnostic. -/
def noPrefixParseFnError (s : PState) (t : TokenType) : PState :=
  { s with errors := s.errors ++ [noPrefixMsg t] }

/-- The text of `parseIntegerLiteral`'s diagnostic:
`"could not parse %q as integer"`. -/
def intErrMsg (lit : String) : String :=
  "could not parse " ++ goQuote lit ++ " as integer"

/-- `Parser.expectPeek`: advance on the expected kind, otherwise record a
`peekError`; returns Go's boolean result alongside the updated state. -/
def expectPeek (s : PState) (t : TokenType) : Bool × PState :=
  if peekTokenIs s t then (true, nextToken s)
  else (false, peekError s t)

/-- The `iota` precedence levels (`_` takes 0). -/
def LOWEST : Nat := 1
def EQUALS : Nat := 2
def LESSGREATER : Nat := 3
def SUM : Nat := 4
def PRODUCT : Nat := 5
def PREFIX : Nat := 6
def CALL : Nat := 7

/-- The `precedences` table (a map from token kind to level). -/
def precedences : TokenType → Option Nat
  | .EQ => some EQUALS
  | .NOT_EQ => some EQUALS
  | .LT => some LESSGREATER
  | .GT => some LESSGREATER
  | .PLUS => some SUM
  | .MINUS => some SUM
  | .SLASH => some PRODUCT
  | .ASTERISK => some PRODUCT
  | _ => none

/-- `Parser.peekPrecedence`: table lookup defaulting to `LOWEST`. -/
def peekPrecedence (s : PState) : Nat :=
  (precedences s.peekToken.type).getD LOWEST

/-- `Parser.curPrecedence`: table lookup defaulting to `LOWEST`. -/
def curPrecedence (s : PState) : Nat :=
  (precedences s.curToken.type).getD LOWEST

/-- The prefix handlers `New` registers (each tag names the method stored in
the `prefixParseFns` map). -/
inductive PrefixFnTag where
  | fnIdent
  | fnIntegerLiteral
  | fnPrefixExpr
  deriving DecidableEq, Repr

/-- The infix handlers `New` registers (all eight kinds map to
`parseInfixExpression`). -/
inductive InfixFnTag where
  | fnInfixExpr
  deriving DecidableEq, Repr

/-- The `prefixParseFns` registry as populated by `New`: IDENT, INT, BANG and
MINUS; every other kind is absent. -/
def prefixParseFns : TokenType → Option PrefixFnTag
  | .IDENT => some .fnIdent
  | .INT => some .fnIntegerLiteral
  | .BANG => some .fnPrefixExpr
  | .MINUS => some .fnPrefixExpr
  | _ => none

/-- The `infixParseFns` registry as populated by `New`: PLUS, MINUS, SLASH,
ASTERISK, EQ, NOT_EQ, LT, GT all map to `parseInfixExpression`. (The given
`parseExpression` never consults this registry.) -/
def infixParseFns : TokenType → Option InfixFnTag
  | .PLUS => some .fnInfixExpr
  | .MINUS => some .fnInfixExpr
  | .SLASH => some .fnInfixExpr
  | .ASTERISK => some .fnInfixExpr
  | .EQ => some .fnInfixExpr
  | .NOT_EQ => some .fnInfixExpr
  | .LT => some .fnInfixExpr
  | .GT => some .fnInfixExpr
  | _ => none

/-- `Parser.parseIdentifier`: an `ast.Identifier` from the current token; the
state is untouched. -/
def parseIdentifier (s : PState) : Expression × PState :=
  (Expression.ident { token := s.curToken, value := s.curToken.literal }, s)

/-- `Parser.parseIntegerLiteral`: `strconv.ParseInt(literal, 0, 64)`; on error
append the malformed-literal diagnostic and return nil, otherwise an
`ast.IntegerLiteral`. -/
def parseIntegerLiteral (s : PState) : Expression × PState :=
  match goParseInt64 s.curToken.literal with
  | none =>
    (Expression.nilExpr, { s with errors := s.errors ++ [intErrMsg s.curToken.literal] })
  | some v => (Expression.intLit s.curToken v, s)

/-- `Parser.parseExpression` exactly as given in the source (lines 212-227):
look up the prefix handler for the current token kind; if none, record the
missing-handler error and return nil; otherwise invoke the handler and return
its result. There is no infix loop: `infixParseFns`, `peekPrecedence` and the
`precedence` argument are never consulted. The call into the registered
handler for BANG/MINUS is Go's `parsePrefixExpression`; its body is inlined
here so that the recursion is structural on the fuel, and the standalone
`parsePrefixExpression` below is definitionally the same code (see
`parseExpression_prefixDispatch`). -/
def parseExpression : Nat → Nat → PState → Option (Expression × PState)
  | fuel, _precedence, s =>
    match prefixParseFns s.curToken.type, fuel with
    | none, _ => some (Expression.nilExpr, noPrefixParseFnError s s.curToken.type)
    | some .fnIdent, _ => some (parseIdentifier s)
    | some .fnIntegerLiteral, _ => some (parseIntegerLiteral s)
    | some .fnPrefixExpr, 0 => none
    | some .fnPrefixExpr, f + 1 =>
      match parseExpression f PREFIX (nextToken s) with
      | none => none
      | some (right, s2) => some (Expression.prefixE s.curToken s.curToken.literal right, s2)

/-- `Parser.parsePrefixExpression` (lines 318-349): capture the operator
token, advance, parse the right side with the PREFIX binding power. -/
def parsePrefixExpression (fuel : Nat) (s : PState) : Option (Expression × PState) :=
  match parseExpression fuel PREFIX (nextToken s) with
  | none => none
  | some (right, s2) => some (Expression.prefixE s.curToken s.curToken.literal right, s2)

/-- `Parser.parseInfixExpression` (lines 356-371): registered in
`infixParseFns` by `New` but never invoked, since `parseExpression` has no
infix loop. -/
def parseInfixExpression (fuel : Nat) (s : PState) (left : Expression) :
    Option (Expression × PState) :=
  let tok := s.curToken
  let prec := curPrecedence s
  let s1 := nextToken s
  match parseExpression fuel prec s1 with
  | none => none
  | some (right, s2) => some (Expression.infixE tok tok.literal left right, s2)

/-- `parseExpression` really does hand BANG/MINUS tokens to
`parsePrefixExpression` (the inlining above is faithful). -/
theorem parseExpression_prefixDispatch (f p : Nat) (s : PState)
    (h : prefixParseFns s.curToken.type = some PrefixFnTag.fnPrefixExpr) :
    parseExpression (f + 1) p s = parsePrefixExpression f s := by
  unfold parseExpression parsePrefixExpression
  rw [h]

/-- `Parser.parseExpressionStatement`: wrap `parseExpression LOWEST` in an
`ast.ExpressionStatement` (token captured first), then swallow an optional
trailing semicolon. Always returns a non-nil statement pointer. -/
def parseExpressionStatement (fuel : Nat) (s : PState) :
    Option (ExpressionStatement × PState) :=
  let stmtToken := s.curToken
  match parseExpression fuel LOWEST s with
  | none => none
  | some (expr, s1) =>
    if peekTokenIs s1 TokenType.SEMICOLON then
      some ({ token := stmtToken, expression := expr }, nextToken s1)
    else
      some ({ token := stmtToken, expression := expr }, s1)

/-- The `for !p.curTokenIs(token.SEMICOLON) { p.nextToken() }` loop shared by
`parseLetStatement` (lines 186-188) and `parseReturnStatement` (lines
199-201). The loop itself has no other exit condition; the fuel is the
embedding's device, and `none` means the Go loop is still spinning. -/
def skipToSemicolon : Nat → PState → Option PState
  | fuel, s =>
    if curTokenIs s TokenType.SEMICOLON then some s
    else
      match fuel with
      | 0 => none
      | f + 1 => skipToSemicolon f (nextToken s)

/-- `Parser.parseLetStatement` (lines 168-191): expect an identifier, bind the
name, expect `=`, then skip tokens up to the semicolon; the value expression
is never parsed (`Value` stays nil). A failed expectation returns the nil
`*ast.LetStatement`. -/
def parseLetStatement (fuel : Nat) (s : PState) :
    Option (Option LetStatement × PState) :=
  let stmtToken := s.curToken
  match expectPeek s TokenType.IDENT with
  | (false, s1) => some (none, s1)
  | (true, s1) =>
    let name : Identifier := { token := s1.curToken, value := s1.curToken.literal }
    match expectPeek s1 TokenType.ASSIGN with
    | (false, s2) => some (none, s2)
    | (true, s2) =>
      match skipToSemicolon fuel s2 with
      | none => none
      | some s3 =>
        some (some { token := stmtToken, name := some name, value := Expression.nilExpr }, s3)

/-- `Parser.parseReturnStatement` (lines 193-204): remember the `return`
token, advance, skip tokens up to the semicolon; `ReturnValue` stays nil. -/
def parseReturnStatement (fuel : Nat) (s : PState) :
    Option (Option ReturnStatement × PState) :=
  let stmtToken := s.curToken
  let s1 := nextToken s
  match skipToSemicolon fuel s1 with
  | none => none
  | some s2 =>
    some (some { token := stmtToken, returnValue := Expression.nilExpr }, s2)

/-- `Parser.parseStatement`: dispatch on the current token kind; each branch
returns its typed result boxed into the `ast.Statement` interface. -/
def parseStatement (fuel : Nat) (s : PState) : Option (Statement × PState) :=
  match s.curToken.type with
  | .LET => (parseLetStatement fuel s).map fun pr => (Statement.letS pr.1, pr.2)
  | .RETURN => (parseReturnStatement fuel s).map fun pr => (Statement.returnS pr.1, pr.2)
  | _ => (parseExpressionStatement fuel s).map fun pr => (Statement.exprS (some pr.1), pr.2)

/-- Go's `stmt != nil` in `ParseProgram` compares the `ast.Statement`
INTERFACE value against nil. Every value `parseStatement` returns is a typed
statement pointer boxed into the interface (`return p.parseLetStatement()`
etc.), and by Go's semantics an interface value holding a typed pointer is
non-nil even when that pointer is nil. The comparison is therefore false for
every value of `Statement`. -/
def statementIsNilInterface (_st : Statement) : Bool := false

/-- The `for !p.curTokenIs(token.EOF)` driver loop of `ParseProgram`: parse a
statement, append it when `stmt != nil`, advance. -/
def parseProgramLoop : Nat → PState → List Statement → Option (List Statement × PState)
  | fuel, s, acc =>
    if curTokenIs s TokenType.EOF then some (acc, s)
    else
      match fuel with
      | 0 => none
      | f + 1 =>
        match parseStatement f s with
        | none => none
        | some (stmt, s1) =>
          let acc1 := if statementIsNilInterface stmt then acc else acc ++ [stmt]
          parseProgramLoop f (nextToken s1) acc1

/-- `Parser.ParseProgram` (lines 135-154). -/
def ParseProgram (fuel : Nat) (s : PState) : Option (Program × PState) :=
  (parseProgramLoop fuel s []).map fun pr => ({ statements := pr.1 }, pr.2)

/-- `parser.New`: start with an empty error list and read two tokens so that
`curToken` and `peekToken` are set. (The zero-value tokens present before
those two reads are never observed, so the placeholder used for them is
immaterial.) -/
def newParser (toks : List Token) : PState :=
  nextToken (nextToken { curToken := eofToken, peekToken := eofToken, rest := toks, errors := [] })


/-- The parser state after a successfully completed parse: both lookahead
tokens are EOF, the stream is exhausted, and `es` is the final error list. -/
def doneState (es : List String) : PState :=
  { curToken := eofToken, peekToken := eofToken, rest := [], errors := es }

/-! Claim C5: `let x = 5; let y = 10; let foobar = 838383;`. -/

/-- The token stream of `let x = 5; let y = 10; let foobar = 838383;`. -/
def c5Tokens : List Token :=
  [⟨.LET, "let"⟩, ⟨.IDENT, "x"⟩, ⟨.ASSIGN, "="⟩, ⟨.INT, "5"⟩, ⟨.SEMICOLON, ";"⟩,
   ⟨.LET, "let"⟩, ⟨.IDENT, "y"⟩, ⟨.ASSIGN, "="⟩, ⟨.INT, "10"⟩, ⟨.SEMICOLON, ";"⟩,
   ⟨.LET, "let"⟩, ⟨.IDENT, "foobar"⟩, ⟨.ASSIGN, "="⟩, ⟨.INT, "838383"⟩, ⟨.SEMICOLON, ";"⟩]

/-- A fully built let statement binding `nm` (with nil `Value`, as
`parseLetStatement` always leaves it). -/
def builtLet (nm : String) : LetStatement :=
  { token := ⟨TokenType.LET, "let"⟩,
    name := some { token := ⟨TokenType.IDENT, nm⟩, value := nm },
    value := Expression.nilExpr }

/-- C5: parsing the token stream of `let x = 5; let y = 10; let foobar = 838383;`
yields exactly three statements, each a (non-nil) LetStatement whose Name token
literals are "x", "y", "foobar" in that order, with an empty error list. -/
theorem c5_letProgram :
    ParseProgram 40 (newParser c5Tokens) =
      some ({ statements := [Statement.letS (some (builtLet "x")),
                             Statement.letS (some (builtLet "y")),
                             Statement.letS (some (builtLet "foobar"))] },
            doneState []) := rfl

/-! Claim C1: `a + b * c` and the (absent) infix loop. -/

/-- The token stream of the expression statement `a + b * c;`. -/
def c1Tokens : List Token :=
  [⟨.IDENT, "a"⟩, ⟨.PLUS, "+"⟩, ⟨.IDENT, "b"⟩, ⟨.ASTERISK, "*"⟩, ⟨.IDENT, "c"⟩,
   ⟨.SEMICOLON, ";"⟩]

/-- An expression statement wrapping just the identifier `nm`. -/
def identStmt (nm : String) : Statement :=
  Statement.exprS (some { token := ⟨TokenType.IDENT, nm⟩,
                          expression := Expression.ident { token := ⟨TokenType.IDENT, nm⟩, value := nm } })

/-- An expression statement whose expression is nil, produced when the token
`t` (literal `lit`) has no prefix handler. -/
def nilExprStmt (t : TokenType) (lit : String) : Statement :=
  Statement.exprS (some { token := ⟨t, lit⟩, expression := Expression.nilExpr })

/-- C1 (counterexample): parsing `a + b * c` does NOT produce a tree rendering
`(a + (b * c))`; the program renders as `abc`, because `parseExpression`
returns the prefix-parsed expression without any infix folding. -/
theorem c1_counterexample :
    (ParseProgram 40 (newParser c1Tokens)).map (fun pr => programString pr.1) =
      some (some "abc")
    ∧ (ParseProgram 40 (newParser c1Tokens)).map (fun pr => programString pr.1) ≠
      some (some "(a + (b * c))") :=
  ⟨rfl, by decide⟩

/-- C1 (amended): `parseExpression` returns the prefix-parsed left expression
immediately — it never consults precedences or the infix registry (even though
`New` registers infix handlers for `+` and `*`) — so `a + b * c;` parses into
five expression statements (`a`, nil for `+`, `b`, nil for `*`, `c`), the
program renders as `abc`, and one missing-prefix-handler error is recorded for
each of `+` and `*`. -/
theorem c1_amended_noInfixLoop :
    ParseProgram 40 (newParser c1Tokens) =
      some ({ statements := [identStmt "a", nilExprStmt TokenType.PLUS "+",
                             identStmt "b", nilExprStmt TokenType.ASTERISK "*",
                             identStmt "c"] },
            doneState [noPrefixMsg TokenType.PLUS, noPrefixMsg TokenType.ASTERISK])
    ∧ (ParseProgram 40 (newParser c1Tokens)).map (fun pr => programString pr.1) =
      some (some "abc")
    ∧ infixParseFns TokenType.PLUS = some InfixFnTag.fnInfixExpr
    ∧ infixParseFns TokenType.ASTERISK = some InfixFnTag.fnInfixExpr :=
  ⟨rfl, rfl, rfl, rfl⟩

/-! Claim C2: failed statements and Go's typed-nil interface. -/

/-- The token stream of `let 5;` (a let statement whose parse fails at the
expected identifier). -/
def c2Tokens : List Token := [⟨.LET, "let"⟩, ⟨.INT, "5"⟩, ⟨.SEMICOLON, ";"⟩]

/-- C2 (the code at the failing input): `parseLetStatement` fails on `let 5;`
and returns the nil `*ast.LetStatement`, but `ParseProgram`'s `stmt != nil`
guard compares the boxed interface value — which is non-nil even around a
typed nil pointer — against nil, so `Statement.letS none` IS appended to
`Program.Statements`, contradicting the claimed invariant that every element
is a fully built, non-nil statement. -/
theorem c2_nilStatementAppended :
    ParseProgram 40 (newParser c2Tokens) =
      some ({ statements :=
                [Statement.letS none,
                 Statement.exprS (some { token := ⟨TokenType.INT, "5"⟩,
                                         expression := Expression.intLit ⟨TokenType.INT, "5"⟩ 5 })] },
            doneState [peekErrorMsg TokenType.IDENT TokenType.INT]) := rfl

/-! Claim C3: termination without a closing semicolon. -/

/-- The token stream of `let x = 5` with NO terminating semicolon: the stream
ends (the tokenizer then yields the end-of-input token forever). -/
def c3Tokens : List Token :=
  [⟨.LET, "let"⟩, ⟨.IDENT, "x"⟩, ⟨.ASSIGN, "="⟩, ⟨.INT, "5"⟩]

/-- The state `parseLetStatement` reaches on `let x = 5` just before its skip
loop: current token `=`, peek `5`, stream exhausted. -/
def c3StuckState : PState :=
  { curToken := ⟨TokenType.ASSIGN, "="⟩, peekToken := ⟨TokenType.INT, "5"⟩,
    rest := [], errors := [] }

/-- Once the stream is exhausted (both lookahead tokens are EOF) the
skip-to-semicolon loop never exits: `nextToken` keeps producing the EOF token
and the loop checks only for SEMICOLON. -/
theorem skipToSemicolon_exhausted (f : Nat) (e : List String) :
    skipToSemicolon f
      { curToken := eofToken, peekToken := eofToken, rest := [], errors := e } = none := by
  induction f with
  | zero => rfl
  | succ n ih => exact ih

/-- The skip loop diverges from `c3StuckState`, whatever the fuel. -/
theorem skipToSemicolon_c3 (f : Nat) : skipToSemicolon f c3StuckState = none := by
  match f with
  | 0 => rfl
  | 1 => rfl
  | n + 2 => exact skipToSemicolon_exhausted n []

/-- `parseLetStatement` never returns on `let x = 5` without a semicolon,
whatever the fuel. -/
theorem parseLetStatement_c3 (f : Nat) :
    parseLetStatement f (newParser c3Tokens) = none := by
  have h1 : parseLetStatement f (newParser c3Tokens) =
      (match skipToSemicolon f c3StuckState with
       | none => none
       | some s3 => some (some (builtLet "x"), s3)) := rfl
  rw [h1, skipToSemicolon_c3 f]

/-- C3: the claim fails — on the finite stream `let x = 5` (terminated only by
end-of-input, with no semicolon) `ParseProgram` does not terminate for any
amount of fuel: the skip loop in `parseLetStatement` consumes nothing once the
stream is exhausted and never sees a SEMICOLON. -/
theorem c3_parseProgramDiverges (fuel : Nat) :
    ParseProgram fuel (newParser c3Tokens) = none := by
  match fuel with
  | 0 => rfl
  | f + 1 =>
    have hs : parseStatement f (newParser c3Tokens) = none := by
      have h2 : parseStatement f (newParser c3Tokens) =
          (parseLetStatement f (newParser c3Tokens)).map
            (fun pr => (Statement.letS pr.1, pr.2)) := rfl
      rw [h2, parseLetStatement_c3 f]
      rfl
    have hp : parseProgramLoop (f + 1) (newParser c3Tokens) [] = none := by
      have h3 : parseProgramLoop (f + 1) (newParser c3Tokens) [] =
          (match parseStatement f (newParser c3Tokens) with
           | none => none
           | some (stmt, s1) =>
             parseProgramLoop f (nextToken s1)
               (if statementIsNilInterface stmt then [] else [] ++ [stmt])) := rfl
      rw [h3, hs]
    have h4 : ParseProgram (f + 1) (newParser c3Tokens) =
        (parseProgramLoop (f + 1) (newParser c3Tokens) []).map
          (fun pr => ({ statements := pr.1 }, pr.2)) := rfl
    rw [h4, hp]
    rfl

/-! Claim C4: tokens with no registered prefix handler. -/

/-- The token stream of `+; x;`: a statement starting with a handler-less
token, followed by a statement that must still be parsed. -/
def c4Tokens : List Token :=
  [⟨.PLUS, "+"⟩, ⟨.SEMICOLON, ";"⟩, ⟨.IDENT, "x"⟩, ⟨.SEMICOLON, ";"⟩]

/-- C4: whenever the current token's kind has no registered prefix handler,
`parseExpression` appends exactly one `"no prefix parse function for <kind>
found"` error and returns the nil expression (for any fuel and any minimum
binding power); and — shown on `+; x;` — `ParseProgram` still parses the
remaining statements of the stream. -/
theorem c4_missingPrefixHandler :
    (∀ (fuel minBP : Nat) (s : PState),
        prefixParseFns s.curToken.type = none →
        parseExpression fuel minBP s =
          some (Expression.nilExpr,
                { s with errors := s.errors ++ [noPrefixMsg s.curToken.type] }))
    ∧ ParseProgram 40 (newParser c4Tokens) =
        some ({ statements := [nilExprStmt TokenType.PLUS "+", identStmt "x"] },
              doneState [noPrefixMsg TokenType.PLUS]) := by
  constructor
  · intro fuel minBP s h
    unfold parseExpression
    rw [h]
    cases fuel <;> rfl
  · rfl

/-- C4 witness: the general statement applied to a concrete parser state whose
current token is `+`. -/
theorem c4_missingPrefixHandler_witness :
    parseExpression 5 LOWEST (newParser [⟨TokenType.PLUS, "+"⟩]) =
      some (Expression.nilExpr,
            { newParser [⟨TokenType.PLUS, "+"⟩] with
              errors := (newParser [⟨TokenType.PLUS, "+"⟩]).errors ++
                [noPrefixMsg (newParser [⟨TokenType.PLUS, "+"⟩]).curToken.type] }) :=
  c4_missingPrefixHandler.1 5 LOWEST (newParser [⟨TokenType.PLUS, "+"⟩]) rfl

/-! Claim C6: malformed integer literals. -/

/-- The token stream of `9223372036854775808; x;` — the first literal is one
past the largest 64-bit signed integer, so `strconv.ParseInt` fails. -/
def c6Tokens : List Token :=
  [⟨.INT, "9223372036854775808"⟩, ⟨.SEMICOLON, ";"⟩, ⟨.IDENT, "x"⟩, ⟨.SEMICOLON, ";"⟩]

/-- C6: whenever the current (integer) token's literal does not parse as a
64-bit signed integer, `parseIntegerLiteral` appends exactly one
malformed-literal error and returns the nil expression; and — shown on
`9223372036854775808; x;` — the overall parse continues and still builds the
subsequent statements. -/
theorem c6_malformedIntegerLiteral :
    (∀ s : PState, goParseInt64 s.curToken.literal = none →
        parseIntegerLiteral s =
          (Expression.nilExpr,
           { s with errors := s.errors ++ [intErrMsg s.curToken.literal] }))
    ∧ ParseProgram 40 (newParser c6Tokens) =
        some ({ statements := [nilExprStmt TokenType.INT "9223372036854775808",
                               identStmt "x"] },
              doneState [intErrMsg "9223372036854775808"]) := by
  constructor
  · intro s h
    unfold parseIntegerLiteral
    rw [h]
  · rfl

/-- C6 witness: the general statement applied to a concrete parser state whose
current token is the out-of-range integer literal. -/
theorem c6_malformedIntegerLiteral_witness :
    parseIntegerLiteral (newParser [⟨TokenType.INT, "9223372036854775808"⟩]) =
      (Expression.nilExpr,
       { newParser [⟨TokenType.INT, "9223372036854775808"⟩] with
         errors := (newParser [⟨TokenType.INT, "9223372036854775808"⟩]).errors ++
           [intErrMsg (newParser [⟨TokenType.INT, "9223372036854775808"⟩]).curToken.literal] }) :=
  c6_malformedIntegerLiteral.1 (newParser [⟨TokenType.INT, "9223372036854775808"⟩]) rfl

/-! Claim C8: let/return never construct their value expression. -/

/-- C8: every non-nil `LetStatement` that `parseLetStatement` returns has a
nil `Value`, and every `ReturnStatement` that `parseReturnStatement` returns
has a nil `ReturnValue` — the value expressions are never constructed, their
tokens are skipped up to the semicolon. -/
theorem c8_valuesNeverConstructed :
    (∀ (fuel : Nat) (s : PState) (ls : LetStatement) (s2 : PState),
        parseLetStatement fuel s = some (some ls, s2) → ls.value = Expression.nilExpr)
    ∧ (∀ (fuel : Nat) (s : PState) (rs : ReturnStatement) (s2 : PState),
        parseReturnStatement fuel s = some (some rs, s2) →
          rs.returnValue = Expression.nilExpr) := by
  constructor
  · intro fuel s ls s2 h
    simp only [parseLetStatement] at h
    split at h
    · simp at h
    · split at h
      · simp at h
      · split at h
        · simp at h
        · simp only [Option.some.injEq, Prod.mk.injEq] at h
          rw [← h.1]
  · intro fuel s rs s2 h
    simp only [parseReturnStatement] at h
    split at h
    · simp at h
    · simp only [Option.some.injEq, Prod.mk.injEq] at h
      rw [← h.1]

/-- The stream `let x = 5;` for the C8 witness. -/
def c8LetTokens : List Token :=
  [⟨.LET, "let"⟩, ⟨.IDENT, "x"⟩, ⟨.ASSIGN, "="⟩, ⟨.INT, "5"⟩, ⟨.SEMICOLON, ";"⟩]

/-- The stream `return 5;` for the C8 witness. -/
def c8RetTokens : List Token :=
  [⟨.RETURN, "return"⟩, ⟨.INT, "5"⟩, ⟨.SEMICOLON, ";"⟩]

/-- The state both C8 parses stop in: current token `;`, stream exhausted. -/
def c8SemiState : PState :=
  { curToken := ⟨TokenType.SEMICOLON, ";"⟩, peekToken := eofToken, rest := [], errors := [] }

/-- C8 witness: the general statement applied to the concrete parses of
`let x = 5;` and `return 5;`. -/
theorem c8_valuesNeverConstructed_witness :
    (builtLet "x").value = Expression.nilExpr
    ∧ ({ token := ⟨TokenType.RETURN, "return"⟩,
         returnValue := Expression.nilExpr } : ReturnStatement).returnValue =
        Expression.nilExpr :=
  ⟨c8_valuesNeverConstructed.1 10 (newParser c8LetTokens) (builtLet "x") c8SemiState rfl,
   c8_valuesNeverConstructed.2 10 (newParser c8RetTokens)
     { token := ⟨TokenType.RETURN, "return"⟩, returnValue := Expression.nilExpr }
     c8SemiState rfl⟩

/-! Claim C9: the rendering of return statements. -/

/-- String concatenation is associative (on the underlying character lists). -/
theorem strAppendAssoc (a b c : String) : a ++ b ++ c = a ++ (b ++ c) := by
  obtain ⟨la⟩ := a
  obtain ⟨lb⟩ := b
  obtain ⟨lc⟩ := c
  show String.mk ((la ++ lb) ++ lc) = String.mk (la ++ (lb ++ lc))
  rw [List.append_assoc]

/-- C9: `ReturnStatement.String` writes the token literal twice (each followed
by a space) and then ";" whenever `ReturnValue` is non-nil — it never renders
`ReturnValue` itself — and writes the literal, a space and ";" when
`ReturnValue` is nil. -/
theorem c9_returnRendering :
    (∀ (tok : Token) (e : Expression), e ≠ Expression.nilExpr →
        returnStatementString { token := tok, returnValue := e } =
          tok.literal ++ " " ++ tok.literal ++ " " ++ ";")
    ∧ ∀ tok : Token,
        returnStatementString { token := tok, returnValue := Expression.nilExpr } =
          tok.literal ++ " " ++ ";" := by
  constructor
  · intro tok e he
    have hnil : isNilExpr e = false := by
      cases e
      · exact absurd rfl he
      all_goals rfl
    simp only [returnStatementString, hnil, Bool.false_eq_true, if_false, strAppendAssoc]
  · intro tok
    rfl

/-- C9 witness: the rendering equalities at the `return` token, with a
non-nil integer return value and with the nil return value. -/
theorem c9_returnRendering_witness :
    returnStatementString { token := ⟨TokenType.RETURN, "return"⟩,
                            returnValue := Expression.intLit ⟨TokenType.INT, "5"⟩ 5 } =
      "return" ++ " " ++ "return" ++ " " ++ ";"
    ∧ returnStatementString { token := ⟨TokenType.RETURN, "return"⟩,
                              returnValue := Expression.nilExpr } =
      "return" ++ " " ++ ";" :=
  ⟨c9_returnRendering.1 ⟨TokenType.RETURN, "return"⟩
     (Expression.intLit ⟨TokenType.INT, "5"⟩ 5) (by decide),
   c9_returnRendering.2 ⟨TokenType.RETURN, "return"⟩⟩

/-! Claim C10: `Program.TokenLiteral`. -/

/-- C10: `Program.TokenLiteral` returns the first statement's `TokenLiteral()`
when the statement list is non-empty and the empty string when it is empty. -/
theorem c10_programTokenLiteral :
    (∀ p : Program, p.statements = [] → programTokenLiteral p = some "")
    ∧ ∀ (p : Program) (st : Statement) (restS : List Statement),
        p.statements = st :: restS → programTokenLiteral p = statementTokenLiteral st := by
  constructor
  · intro p hp
    unfold programTokenLiteral
    rw [hp]
  · intro p st restS hp
    unfold programTokenLiteral
    rw [hp]

/-- C10 witness: both cases at concrete programs. -/
theorem c10_programTokenLiteral_witness :
    programTokenLiteral { statements := [] } = some ""
    ∧ programTokenLiteral { statements := [identStmt "foobar"] } =
        statementTokenLiteral (identStmt "foobar") :=
  ⟨c10_programTokenLiteral.1 { statements := [] } rfl,
   c10_programTokenLiteral.2 { statements := [identStmt "foobar"] }
     (identStmt "foobar") [] rfl⟩

/-! Claim C7: the shapes of the accumulated error strings. -/

/-- The two error forms the spec's external-interface section lists:
`"no prefix parse function for <kind> found"` and
`"expected next token to be <kind>, got <kind> instead"`. -/
def claimedErrorForm (m : String) : Prop :=
  (∃ t, m = noPrefixMsg t) ∨ ∃ t u, m = peekErrorMsg t u

instance (m : String) : Decidable (claimedErrorForm m) := by
  unfold claimedErrorForm
  exact inferInstance

/-- The error forms the parser can actually produce: the two claimed ones plus
`parseIntegerLiteral`'s `"could not parse <literal> as integer"`. -/
def actualErrorForm (m : String) : Prop :=
  claimedErrorForm m ∨ ∃ lit, m = intErrMsg lit

/-- Every accumulated error string has one of the producible forms. -/
def GoodErrs (s : PState) : Prop := ∀ m ∈ s.errors, actualErrorForm m

theorem actualErrorForm_noPrefix (t : TokenType) : actualErrorForm (noPrefixMsg t) :=
  Or.inl (Or.inl ⟨t, rfl⟩)

theorem actualErrorForm_peek (t u : TokenType) : actualErrorForm (peekErrorMsg t u) :=
  Or.inl (Or.inr ⟨t, u, rfl⟩)

theorem actualErrorForm_int (lit : String) : actualErrorForm (intErrMsg lit) :=
  Or.inr ⟨lit, rfl⟩

/-- The token stream of `9223372036854775808;` for the C7 counterexample. -/
def c7Tokens : List Token := [⟨.INT, "9223372036854775808"⟩, ⟨.SEMICOLON, ";"⟩]

/-- C7 (counterexample): a full parse of `9223372036854775808;` appends the
malformed-literal error, which matches neither of the two claimed forms. -/
theorem c7_counterexample :
    (ParseProgram 40 (newParser c7Tokens)).map (fun pr => pr.2.errors) =
      some [intErrMsg "9223372036854775808"]
    ∧ ¬ claimedErrorForm (intErrMsg "9223372036854775808") := by
  refine ⟨rfl, ?_⟩
  decide

/-! Preservation of `GoodErrs` through every parsing operation. -/

theorem goodErrs_append (s : PState) (l : List String) (hs : GoodErrs s)
    (hl : ∀ m ∈ l, actualErrorForm m) :
    GoodErrs { s with errors := s.errors ++ l } := by
  intro m hm
  rcases List.mem_append.mp hm with h | h
  · exact hs m h
  · exact hl m h

theorem goodErrs_nextToken (s : PState) (h : GoodErrs s) : GoodErrs (nextToken s) := h

theorem goodErrs_noPrefixParseFnError (s : PState) (t : TokenType) (h : GoodErrs s) :
    GoodErrs (noPrefixParseFnError s t) := by
  refine goodErrs_append s _ h ?_
  intro m hm
  rw [List.mem_singleton.mp hm]
  exact actualErrorForm_noPrefix t

theorem goodErrs_expectPeek (s : PState) (t : TokenType) (h : GoodErrs s) :
    GoodErrs (expectPeek s t).2 := by
  unfold expectPeek
  split
  · exact goodErrs_nextToken s h
  · refine goodErrs_append s _ h ?_
    intro m hm
    rw [List.mem_singleton.mp hm]
    exact actualErrorForm_peek t s.peekToken.type

theorem goodErrs_parseIntegerLiteral (s : PState) (h : GoodErrs s) :
    GoodErrs (parseIntegerLiteral s).2 := by
  unfold parseIntegerLiteral
  split
  · refine goodErrs_append s _ h ?_
    intro m hm
    rw [List.mem_singleton.mp hm]
    exact actualErrorForm_int s.curToken.literal
  · exact h

theorem goodErrs_skipToSemicolon (f : Nat) :
    ∀ (s s2 : PState), GoodErrs s → skipToSemicolon f s = some s2 → GoodErrs s2 := by
  induction f with
  | zero =>
    intro s s2 hg hr
    have he : skipToSemicolon 0 s =
        (if curTokenIs s TokenType.SEMICOLON then some s else none) := rfl
    rw [he] at hr
    split at hr
    · rw [← Option.some.injEq s s2 |>.mp hr]
      exact hg
    · exact absurd hr (by simp)
  | succ n ih =>
    intro s s2 hg hr
    have he : skipToSemicolon (n + 1) s =
        (if curTokenIs s TokenType.SEMICOLON then some s
         else skipToSemicolon n (nextToken s)) := rfl
    rw [he] at hr
    split at hr
    · rw [← Option.some.injEq s s2 |>.mp hr]
      exact hg
    · exact ih (nextToken s) s2 (goodErrs_nextToken s hg) hr

theorem goodErrs_parseExpression (f : Nat) :
    ∀ (minBP : Nat) (s : PState) (e : Expression) (s2 : PState),
      GoodErrs s → parseExpression f minBP s = some (e, s2) → GoodErrs s2 := by
  induction f with
  | zero =>
    intro minBP s e s2 hg h
    unfold parseExpression at h
    split at h
    · simp only [Option.some.injEq, Prod.mk.injEq] at h
      rw [← h.2]
      exact goodErrs_noPrefixParseFnError s s.curToken.type hg
    · simp only [parseIdentifier, Option.some.injEq, Prod.mk.injEq] at h
      rw [← h.2]
      exact hg
    · simp only [Option.some.injEq] at h
      have hgi := goodErrs_parseIntegerLiteral s hg
      rw [h] at hgi
      exact hgi
    · exact absurd h (by simp)
    · rename_i x fuel2 f2 hpre hfuel
      exact absurd hfuel (by omega)
  | succ n ih =>
    intro minBP s e s2 hg h
    unfold parseExpression at h
    split at h
    · simp only [Option.some.injEq, Prod.mk.injEq] at h
      rw [← h.2]
      exact goodErrs_noPrefixParseFnError s s.curToken.type hg
    · simp only [parseIdentifier, Option.some.injEq, Prod.mk.injEq] at h
      rw [← h.2]
      exact hg
    · simp only [Option.some.injEq] at h
      have hgi := goodErrs_parseIntegerLiteral s hg
      rw [h] at hgi
      exact hgi
    · exact absurd h (by simp)
    · rename_i x fuel2 f2 hpre hfuel
      have hf : n = f2 := by omega
      subst hf
      split at h
      · exact absurd h (by simp)
      · rename_i right s3 heq
        simp only [Option.some.injEq, Prod.mk.injEq] at h
        rw [← h.2]
        exact ih PREFIX (nextToken s) right s3 (goodErrs_nextToken s hg) heq

theorem goodErrs_parseExpressionStatement (f : Nat) (s : PState)
    (st : ExpressionStatement) (s2 : PState) (hg : GoodErrs s)
    (h : parseExpressionStatement f s = some (st, s2)) : GoodErrs s2 := by
  unfold parseExpressionStatement at h
  split at h
  · exact absurd h (by simp)
  · rename_i expr s1 heq
    have h1 : GoodErrs s1 := goodErrs_parseExpression f LOWEST s expr s1 hg heq
    split at h
    · simp only [Option.some.injEq, Prod.mk.injEq] at h
      rw [← h.2]
      exact goodErrs_nextToken s1 h1
    · simp only [Option.some.injEq, Prod.mk.injEq] at h
      rw [← h.2]
      exact h1

theorem goodErrs_parseLetStatement (f : Nat) (s : PState)
    (ls : Option LetStatement) (s2 : PState) (hg : GoodErrs s)
    (h : parseLetStatement f s = some (ls, s2)) : GoodErrs s2 := by
  simp only [parseLetStatement] at h
  split at h
  · rename_i s1 heq
    have hg1 : GoodErrs s1 := by
      have h0 := goodErrs_expectPeek s TokenType.IDENT hg
      rw [heq] at h0
      exact h0
    simp only [Option.some.injEq, Prod.mk.injEq] at h
    rw [← h.2]
    exact hg1
  · rename_i s1 heq
    have hg1 : GoodErrs s1 := by
      have h0 := goodErrs_expectPeek s TokenType.IDENT hg
      rw [heq] at h0
      exact h0
    split at h
    · rename_i s2a heq2
      have hg2 : GoodErrs s2a := by
        have h0 := goodErrs_expectPeek s1 TokenType.ASSIGN hg1
        rw [heq2] at h0
        exact h0
      simp only [Option.some.injEq, Prod.mk.injEq] at h
      rw [← h.2]
      exact hg2
    · rename_i s2a heq2
      have hg2 : GoodErrs s2a := by
        have h0 := goodErrs_expectPeek s1 TokenType.ASSIGN hg1
        rw [heq2] at h0
        exact h0
      split at h
      · exact absurd h (by simp)
      · rename_i s3 heq3
        simp only [Option.some.injEq, Prod.mk.injEq] at h
        rw [← h.2]
        exact goodErrs_skipToSemicolon f s2a s3 hg2 heq3

theorem goodErrs_parseReturnStatement (f : Nat) (s : PState)
    (rs : Option ReturnStatement) (s2 : PState) (hg : GoodErrs s)
    (h : parseReturnStatement f s = some (rs, s2)) : GoodErrs s2 := by
  simp only [parseReturnStatement] at h
  split at h
  · exact absurd h (by simp)
  · rename_i s3 heq
    simp only [Option.some.injEq, Prod.mk.injEq] at h
    rw [← h.2]
    exact goodErrs_skipToSemicolon f (nextToken s) s3 (goodErrs_nextToken s hg) heq

theorem goodErrs_parseStatement (f : Nat) (s : PState) (st : Statement) (s2 : PState)
    (hg : GoodErrs s) (h : parseStatement f s = some (st, s2)) : GoodErrs s2 := by
  unfold parseStatement at h
  split at h
  · cases hopt : parseLetStatement f s with
    | none => rw [hopt] at h; exact absurd h (by simp)
    | some pr =>
      rw [hopt] at h
      simp only [Option.map_some', Option.some.injEq] at h
      have h2 : pr.2 = s2 := congrArg Prod.snd h
      rw [← h2]
      exact goodErrs_parseLetStatement f s pr.1 pr.2 hg (by rw [hopt])
  · cases hopt : parseReturnStatement f s with
    | none => rw [hopt] at h; exact absurd h (by simp)
    | some pr =>
      rw [hopt] at h
      simp only [Option.map_some', Option.some.injEq] at h
      have h2 : pr.2 = s2 := congrArg Prod.snd h
      rw [← h2]
      exact goodErrs_parseReturnStatement f s pr.1 pr.2 hg (by rw [hopt])
  · cases hopt : parseExpressionStatement f s with
    | none => rw [hopt] at h; exact absurd h (by simp)
    | some pr =>
      rw [hopt] at h
      simp only [Option.map_some', Option.some.injEq] at h
      have h2 : pr.2 = s2 := congrArg Prod.snd h
      rw [← h2]
      exact goodErrs_parseExpressionStatement f s pr.1 pr.2 hg (by rw [hopt])

theorem goodErrs_parseProgramLoop (f : Nat) :
    ∀ (s : PState) (acc : List Statement) (res : List Statement × PState),
      GoodErrs s → parseProgramLoop f s acc = some res → GoodErrs res.2 := by
  induction f with
  | zero =>
    intro s acc res hg h
    have he : parseProgramLoop 0 s acc =
        (if curTokenIs s TokenType.EOF then some (acc, s) else none) := rfl
    rw [he] at h
    split at h
    · have h2 : s = res.2 := congrArg Prod.snd (Option.some.injEq _ _ |>.mp h)
      rw [← h2]
      exact hg
    · exact absurd h (by simp)
  | succ n ih =>
    intro s acc res hg h
    have he : parseProgramLoop (n + 1) s acc =
        (if curTokenIs s TokenType.EOF then some (acc, s)
         else
           match parseStatement n s with
           | none => none
           | some (stmt, s1) =>
             parseProgramLoop n (nextToken s1)
               (if statementIsNilInterface stmt then acc else acc ++ [stmt])) := rfl
    rw [he] at h
    split at h
    · have h2 : s = res.2 := congrArg Prod.snd (Option.some.injEq _ _ |>.mp h)
      rw [← h2]
      exact hg
    · split at h
      · exact absurd h (by simp)
      · rename_i stmt s1 heq
        exact ih (nextToken s1) _ res
          (goodErrs_nextToken s1 (goodErrs_parseStatement n s stmt s1 hg heq)) h

/-- C7 (amended): every error string that a full parse (`New` followed by
`ParseProgram`) accumulates has one of THREE forms: the two claimed ones, or
`parseIntegerLiteral`'s `"could not parse <literal> as integer"`. -/
theorem c7_amended_threeForms :
    ∀ (toks : List Token) (fuel : Nat) (prog : Program) (s2 : PState),
      ParseProgram fuel (newParser toks) = some (prog, s2) →
      ∀ m ∈ s2.errors, actualErrorForm m := by
  intro toks fuel prog s2 h m hm
  unfold ParseProgram at h
  cases hopt : parseProgramLoop fuel (newParser toks) [] with
  | none => rw [hopt] at h; exact absurd h (by simp)
  | some pr =>
    rw [hopt] at h
    simp only [Option.map_some', Option.some.injEq] at h
    have h2 : pr.2 = s2 := congrArg Prod.snd h
    have hg0 : GoodErrs (newParser toks) := by
      intro m0 hm0
      exact absurd hm0 (List.not_mem_nil m0)
    have hgood := goodErrs_parseProgramLoop fuel (newParser toks) [] pr hg0 hopt
    rw [h2] at hgood
    exact hgood m hm

/-- C7 witness for the amended claim: applied to the full parse of the
single-token stream `+`, whose one error is of the missing-handler form. -/
theorem c7_amended_threeForms_witness :
    actualErrorForm (noPrefixMsg TokenType.PLUS) :=
  c7_amended_threeForms [⟨TokenType.PLUS, "+"⟩] 10
    { statements := [nilExprStmt TokenType.PLUS "+"] }
    (doneState [noPrefixMsg TokenType.PLUS]) rfl
    (noPrefixMsg TokenType.PLUS) (by simp [doneState])

end Monke
